import Mathlib

/-!
Verification of the quick-record instant-replay pipeline core.

This file gives a shallow embedding, in Lean 4, of the parts of the C sources
relevant to the sample ring buffer (`src/sample_buffer.c`), the NVENC encoder
wrapper submission path (`src/nvenc_encoder.c`) and the replay controller save
gate and shutdown flush (`src/replay_buffer.c`), together with theorems about
the buffer invariants, snapshot export, backpressure, forced-IDR cadence, the
save fast-fail gate, and the shutdown flush behaviour.

Modelling conventions:
* C structs become Lean structures; pointers to owned byte buffers become
  `Option (List Nat)` (`none` models a NULL pointer, `some bytes` an owned
  allocation; a deep copy has equal bytes).
* `LONGLONG` timestamps and durations are `Int`; sizes and counts that the C
  code keeps as non-negative `int`/`DWORD` values are `Nat`.
* C while loops are modelled as fuel recursion where the fuel chosen at each
  call site provably dominates the number of iterations the C loop performs.
* Fallible external calls (malloc, keyed-mutex acquisition, the NVENC session
  calls) are modelled by boolean oracles passed in as arguments, so that every
  early-return path of the C code is represented.
* Functions that mutate state through pointers return the updated values; a
  function that returns `BOOL` in C returns that flag as part of its result.
-/

namespace QuickRecord

/-- Quality presets, from `config.h` (`QUALITY_LOW`..`QUALITY_LOSSLESS`). -/
inductive QualityPreset
  | low
  | medium
  | high
  | lossless
deriving DecidableEq, Repr

/-- `EncodedFrame` from `nvenc_encoder.h`: `data` is an owned byte buffer
(`none` = NULL), with size, 100-ns timestamp, duration and keyframe flag. -/
structure EncodedFrame where
  data : Option (List Nat)
  size : Nat
  timestamp : Int
  duration : Int
  isKeyframe : Bool
deriving DecidableEq, Repr

/-- `BufferedSample` from `sample_buffer.h`: one stored sample slot. -/
structure BufferedSample where
  data : Option (List Nat)
  size : Nat
  timestamp : Int
  duration : Int
  isKeyframe : Bool
deriving DecidableEq, Repr

/-- The all-zero sample slot (what `calloc` produces and what `FreeSample`
leaves behind). -/
def emptySample : BufferedSample :=
  { data := none, size := 0, timestamp := 0, duration := 0, isKeyframe := false }

instance : Inhabited BufferedSample := ⟨emptySample⟩

/-- `MuxerSample` from `mp4_muxer.h`: a deep-copied sample handed to the muxer. -/
structure MuxerSample where
  data : Option (List Nat)
  size : Nat
  timestamp : Int
  duration : Int
  isKeyframe : Bool
deriving DecidableEq, Repr

instance : Inhabited MuxerSample :=
  ⟨{ data := none, size := 0, timestamp := 0, duration := 0, isKeyframe := false }⟩

/-- `SampleBuffer` from `sample_buffer.h`. `samples` models the backing array
(its length equals `capacity` for every buffer produced by `SampleBuffer_Init`);
`head`/`tail`/`count` are the circular indices, `maxDuration` the 100-ns
retention window. The critical section is not modelled (all calls here are the
serialized bodies executed under the lock). -/
structure SampleBuffer where
  samples : List BufferedSample
  capacity : Nat
  count : Nat
  head : Nat
  tail : Nat
  maxDuration : Int
  width : Int
  height : Int
  fps : Int
  quality : QualityPreset
  initialized : Bool
deriving DecidableEq, Repr

/-- `FreeSample` from `sample_buffer.c`: frees the data pointer and zeroes all
fields of the slot. -/
def FreeSample (_s : BufferedSample) : BufferedSample := emptySample

/-- One iteration of either eviction loop body in `EvictOldSamples`
(`sample_buffer.c` lines 46-49 and 55-58): free the sample at `tail`, advance
`tail` modulo `capacity`, decrement `count`. -/
def evictOldestOnce (buf : SampleBuffer) : SampleBuffer :=
  { buf with
      samples := buf.samples.set buf.tail (FreeSample (buf.samples.getD buf.tail default))
      tail := (buf.tail + 1) % buf.capacity
      count := buf.count - 1 }

/-- The first `while` loop of `EvictOldSamples` (`sample_buffer.c` lines
36-51): keep evicting the oldest sample while
`newTimestamp - oldest.timestamp > maxDuration`. Each iteration decrements
`count`, so fuel `buf.count` makes the recursion exactly simulate the loop. -/
def evictWhileOverDuration : Nat → SampleBuffer → Int → SampleBuffer
  | 0, buf, _ => buf
  | fuel + 1, buf, newTimestamp =>
    if buf.count = 0 then buf
    else
      let oldest := buf.samples.getD buf.tail default
      if newTimestamp - oldest.timestamp ≤ buf.maxDuration then buf
      else evictWhileOverDuration fuel (evictOldestOnce buf) newTimestamp

/-- The second `while` loop of `EvictOldSamples` (`sample_buffer.c` lines
54-60): keep evicting while `count >= capacity`. Each iteration decrements
`count`; for `capacity ≥ 1` the loop performs at most `count` iterations, so
fuel `buf.count` exactly simulates it. -/
def evictWhileAtCapacity : Nat → SampleBuffer → SampleBuffer
  | 0, buf => buf
  | fuel + 1, buf =>
    if buf.capacity ≤ buf.count then evictWhileAtCapacity fuel (evictOldestOnce buf)
    else buf

/-- `EvictOldSamples` from `sample_buffer.c` lines 30-69: early return on an
empty buffer, then the duration loop followed by the capacity loop (the
logging in the C code has no effect on the buffer state). -/
def EvictOldSamples (buf : SampleBuffer) (newTimestamp : Int) : SampleBuffer :=
  if buf.count = 0 then buf
  else
    let buf1 := evictWhileOverDuration buf.count buf newTimestamp
    evictWhileAtCapacity buf1.count buf1

/-- `SampleBuffer_Init` from `sample_buffer.c` lines 71-105. The C code
computes `(int)(durationSeconds * fps * 1.5)`: for every product in the
clamped range the double multiplication by 1.5 is exact and the cast truncates
toward zero, which is `Int.tdiv (d * fps * 3) 2` (C truncating division).
`allocOk` models whether the `calloc` of the sample array succeeds; on failure
the C function returns FALSE, modelled as `none`. -/
def SampleBuffer_Init (durationSeconds fps width height : Int)
    (quality : QualityPreset) (allocOk : Bool) : Option SampleBuffer :=
  let capacity0 : Int := Int.tdiv (durationSeconds * fps * 3) 2
  let capacity1 : Int := if capacity0 < 100 then 100 else capacity0
  let capacity : Int := if capacity1 > 100000 then 100000 else capacity1
  if allocOk then
    some
      { samples := List.replicate capacity.toNat emptySample
        capacity := capacity.toNat
        count := 0
        head := 0
        tail := 0
        maxDuration := durationSeconds * 10000000
        width := width
        height := height
        fps := fps
        quality := quality
        initialized := true }
  else none

/-- The slot contents taken over from the caller's frame
(`sample_buffer.c` lines 146-150). -/
def frameSlot (frame : EncodedFrame) : BufferedSample :=
  { data := frame.data
    size := frame.size
    timestamp := frame.timestamp
    duration := frame.duration
    isKeyframe := frame.isKeyframe }

/-- The insertion step of `SampleBuffer_Add` (`sample_buffer.c` lines
139-157): write the slot at `head`, advance `head` modulo `capacity`,
increment `count`. (Freeing stale data in the slot before overwriting has no
effect on the value state.) -/
def insertAtHead (buf : SampleBuffer) (slot : BufferedSample) : SampleBuffer :=
  { buf with
      samples := buf.samples.set buf.head slot
      head := (buf.head + 1) % buf.capacity
      count := buf.count + 1 }

/-- `SampleBuffer_Add` from `sample_buffer.c` lines 130-162. Returns the
updated buffer, the updated caller frame (the C code clears `frame->data` and
`frame->size` after taking ownership) and the `BOOL` result. The guard models
`!buf || !buf->initialized || !frame || !frame->data`. -/
def SampleBuffer_Add (buf : SampleBuffer) (frame : EncodedFrame) :
    SampleBuffer × EncodedFrame × Bool :=
  if buf.initialized = false ∨ frame.data = none then (buf, frame, false)
  else
    let buf1 := EvictOldSamples buf frame.timestamp
    let buf2 := insertAtHead buf1 (frameSlot frame)
    (buf2, { frame with data := none, size := 0 }, true)

/-- The buffer after a sequence of `SampleBuffer_Add` calls (each call's
updated frame is returned to its caller; only the buffer threads through). -/
def addAll (buf : SampleBuffer) (frames : List EncodedFrame) : SampleBuffer :=
  frames.foldl (fun b f => (SampleBuffer_Add b f).1) buf

/-- The i-th live sample, counted from the oldest: the C code reads it as
`buf->samples[(buf->tail + i) % buf->capacity]`. -/
def liveAt (buf : SampleBuffer) (i : Nat) : BufferedSample :=
  buf.samples.getD ((buf.tail + i) % buf.capacity) default

/-- The live region of the buffer, oldest first: samples at logical indices
`0 .. count-1`. -/
def live (buf : SampleBuffer) : List BufferedSample :=
  (List.range buf.count).map (liveAt buf)

/-- Timestamp of the oldest stored sample (the one at `tail`). -/
def oldestTs (buf : SampleBuffer) : Int := (liveAt buf 0).timestamp

/-- Timestamp of the newest stored sample (the one at
`(head - 1 + capacity) % capacity`, i.e. logical index `count - 1`). -/
def newestTs (buf : SampleBuffer) : Int := (liveAt buf (buf.count - 1)).timestamp

/-- The spec's buffer time-span invariant: after an `Add`, either the buffer
holds exactly one sample or the stored span is at most `maxDuration`. -/
def spanInvariant (buf : SampleBuffer) : Prop :=
  buf.count = 1 ∨ newestTs buf - oldestTs buf ≤ buf.maxDuration

instance (buf : SampleBuffer) : Decidable (spanInvariant buf) := by
  unfold spanInvariant; infer_instance

/-- Structural well-formedness of the circular buffer: the backing array has
`capacity` slots, the live count fits, `head` is `tail + count` modulo
`capacity`, and the indices are in range. `SampleBuffer_Init` establishes it
and `SampleBuffer_Add` preserves it. -/
def WF (buf : SampleBuffer) : Prop :=
  buf.samples.length = buf.capacity ∧ buf.count ≤ buf.capacity ∧
    buf.head = (buf.tail + buf.count) % buf.capacity ∧
    buf.tail < buf.capacity ∧ 0 < buf.capacity

instance (buf : SampleBuffer) : Decidable (WF buf) := by
  unfold WF; infer_instance

/-- Eligibility test used by the snapshot loops in `sample_buffer.c`
(lines 343 and 353): a stored sample contributes iff `src->data && src->size > 0`. -/
def eligSample (s : BufferedSample) : Bool :=
  s.data.isSome && decide (0 < s.size)

/-- The first-timestamp scan of `SampleBuffer_GetSamplesForMuxing`
(`sample_buffer.c` lines 340-347): the timestamp of the first live sample
with non-NULL data and positive size, defaulting to 0. -/
def findFirstTimestamp (buf : SampleBuffer) : Int :=
  ((((List.range buf.count).find? fun i => eligSample (liveAt buf i)).map
    fun i => (liveAt buf i).timestamp).getD 0)

/-- The deep-copy loop of `SampleBuffer_GetSamplesForMuxing`
(`sample_buffer.c` lines 350-364): iterate the live region in order; for each
eligible sample whose per-sample `malloc` succeeds (`sampleAllocOk i`), append
a deep copy with the timestamp re-based by `firstTimestamp`; otherwise skip. -/
def copySamples (buf : SampleBuffer) (firstTimestamp : Int)
    (sampleAllocOk : Nat → Bool) : List MuxerSample :=
  (List.range buf.count).filterMap fun i =>
    let src := liveAt buf i
    if eligSample src && sampleAllocOk i then
      some
        { data := src.data
          size := src.size
          timestamp := src.timestamp - firstTimestamp
          duration := src.duration
          isKeyframe := src.isKeyframe }
    else none

/-- `SampleBuffer_GetSamplesForMuxing` from `sample_buffer.c` lines 318-371.
`arrayAllocOk` models the `malloc` of the output array, `sampleAllocOk i` the
per-sample deep-copy `malloc` in loop iteration `i`. Returns the buffer (the
function takes the lock, reads, and releases — the C body never writes to
`buf`), the `BOOL` result (`copiedCount > 0`), and the output array (`none`
models `*outSamples == NULL`, i.e. the early-return paths). -/
def SampleBuffer_GetSamplesForMuxing (buf : SampleBuffer) (arrayAllocOk : Bool)
    (sampleAllocOk : Nat → Bool) :
    SampleBuffer × Bool × Option (List MuxerSample) :=
  if buf.initialized = false then (buf, false, none)
  else if buf.count = 0 then (buf, false, none)
  else if arrayAllocOk = false then (buf, false, none)
  else
    let firstTimestamp := findFirstTimestamp buf
    let samples := copySamples buf firstTimestamp sampleAllocOk
    (buf, decide (0 < samples.length), some samples)

/-- `NUM_BUFFERS` from `nvenc_encoder.c` line 41. -/
def NUM_BUFFERS : Nat := 8

/-- `NVENCEncoder` state from `nvenc_encoder.c` (the fields that the
submission path reads or writes). GPU handles, events and the output-thread
plumbing are external resources and are not part of the value state; `fps` is
a `Nat` because `NVENCEncoder_Create` rejects `fps <= 0`. -/
structure NVENCEncoder where
  pendingTimestamps : List Int
  submitIndex : Nat
  retrieveIndex : Nat
  pendingCount : Int
  frameNumber : Nat
  fps : Nat
  pipelineFullCount : Nat
  mutexTimeoutCount : Nat
  initialized : Bool
  asyncMode : Bool
deriving DecidableEq, Repr

/-- Outcomes of the external calls made by `NVENCEncoder_SubmitTexture`:
source-side keyed-mutex acquire (line 458), encoder-side keyed-mutex acquire
(line 484), `nvEncMapInputResource` (line 500) and `nvEncEncodePicture`
(line 537). -/
structure SubmitEnv where
  srcAcquireOk : Bool
  encAcquireOk : Bool
  mapOk : Bool
  encodeOk : Bool
deriving DecidableEq, Repr

/-- An environment in which every external call succeeds. -/
def goodEnv : SubmitEnv :=
  { srcAcquireOk := true, encAcquireOk := true, mapOk := true, encodeOk := true }

/-- How one `NVENCEncoder_SubmitTexture` call ended. `submitted b` records
whether the picture carried `NV_ENC_PIC_FLAG_FORCEIDR`. -/
inductive SubmitResult
  | invalidArgs
  | rejectedFull
  | rejectedSrcMutex
  | rejectedEncMutex
  | rejectedMap
  | rejectedEncode
  | submitted (forcedIDR : Bool)
deriving DecidableEq, Repr

/-- `NVENCEncoder_SubmitTexture` from `nvenc_encoder.c` lines 434-568.
Mirrors the C control flow: argument guard; pipeline-full backpressure check
(`pendingCount >= NUM_BUFFERS` rejects before anything is queued, bumping only
the rate-limit counter); the two keyed-mutex acquisitions; resource mapping;
the forced-IDR flag `frameNumber % (fps * 2) == 0` (line 533); the encode
call; and on success the slot bookkeeping (store timestamp, advance
`submitIndex`, increment `pendingCount` and `frameNumber`). -/
def NVENCEncoder_SubmitTexture (enc : NVENCEncoder) (textureNonNull : Bool)
    (timestamp : Int) (env : SubmitEnv) : NVENCEncoder × SubmitResult :=
  if enc.initialized = false ∨ textureNonNull = false then (enc, .invalidArgs)
  else if (NUM_BUFFERS : Int) ≤ enc.pendingCount then
    ({ enc with pipelineFullCount := enc.pipelineFullCount + 1 }, .rejectedFull)
  else if env.srcAcquireOk = false then
    ({ enc with mutexTimeoutCount := enc.mutexTimeoutCount + 1 }, .rejectedSrcMutex)
  else if env.encAcquireOk = false then (enc, .rejectedEncMutex)
  else if env.mapOk = false then (enc, .rejectedMap)
  else
    let forcedIDR : Bool := decide (enc.frameNumber % (enc.fps * 2) = 0)
    if env.encodeOk = false then (enc, .rejectedEncode)
    else
      ({ enc with
          pendingTimestamps := enc.pendingTimestamps.set enc.submitIndex timestamp
          submitIndex := (enc.submitIndex + 1) % NUM_BUFFERS
          pendingCount := enc.pendingCount + 1
          frameNumber := enc.frameNumber + 1 },
        .submitted forcedIDR)

/-- The encoder state right after a successful `NVENCEncoder_Create`
(`nvenc_encoder.c` lines 147-426): the struct is `calloc`-zeroed, `fps` is
stored, async mode is selected, and no frame has been submitted or retrieved. -/
def freshEncoder (fps : Nat) : NVENCEncoder :=
  { pendingTimestamps := List.replicate NUM_BUFFERS 0
    submitIndex := 0
    retrieveIndex := 0
    pendingCount := 0
    frameNumber := 0
    fps := fps
    pipelineFullCount := 0
    mutexTimeoutCount := 0
    initialized := true
    asyncMode := true }

/-- One submission call: texture validity, timestamp, external-call outcomes. -/
structure SubmitCall where
  textureNonNull : Bool
  timestamp : Int
  env : SubmitEnv
deriving DecidableEq, Repr

/-- Run a sequence of `NVENCEncoder_SubmitTexture` calls, collecting the
per-call results in order. -/
def submitSeq : NVENCEncoder → List SubmitCall → NVENCEncoder × List SubmitResult
  | enc, [] => (enc, [])
  | enc, c :: cs =>
    let step := NVENCEncoder_SubmitTexture enc c.textureNonNull c.timestamp c.env
    let rest := submitSeq step.1 cs
    (rest.1, step.2 :: rest.2)

/-- The forced-IDR flags of the successful submissions, in submission order. -/
def idrFlags (rs : List SubmitResult) : List Bool :=
  rs.filterMap fun r =>
    match r with
    | .submitted b => some b
    | _ => none

/-- `NVENCEncoder_Flush` from `nvenc_encoder.c` lines 588-599: zeroes the
output frame, sends an EOS picture to the session (an external side effect)
and unconditionally returns FALSE. It never produces a drained frame. -/
def NVENCEncoder_Flush (_enc : NVENCEncoder) (_outFrame : EncodedFrame) :
    EncodedFrame × Bool :=
  ({ data := none, size := 0, timestamp := 0, duration := 0, isKeyframe := false },
    false)

/-- The shutdown drain loop of `BufferThreadProc` (`replay_buffer.c` lines
852-861): `while (NVENCEncoder_Flush(g_encoder, &flushed)) SampleBuffer_Add(...)`.
Fuel bounds the number of iterations the loop could possibly perform (any
bound works: the loop guard is `NVENCEncoder_Flush`'s return value). -/
def shutdownFlushDrain : Nat → NVENCEncoder → SampleBuffer → SampleBuffer
  | 0, _, buf => buf
  | fuel + 1, enc, buf =>
    let flushed : EncodedFrame :=
      { data := none, size := 0, timestamp := 0, duration := 0, isKeyframe := false }
    let r := NVENCEncoder_Flush enc flushed
    if r.2 then shutdownFlushDrain fuel enc (SampleBuffer_Add buf r.1).1
    else buf

/-- Modelled from the spec: the replay controller state enum. The header
defining `REPLAY_STATE_UNINITIALIZED`, `REPLAY_STATE_STARTING`,
`REPLAY_STATE_CAPTURING`, `REPLAY_STATE_STOPPING` and `REPLAY_STATE_ERROR` is
not present under `src/` (the `replay_buffer.h` there is a stale revision
without the state machine fields); the spec gives the enum
`{UNINITIALIZED, STARTING, CAPTURING, STOPPING, ERROR}`. -/
inductive ReplayState
  | uninitialized
  | starting
  | capturing
  | stopping
  | error
deriving DecidableEq, Repr

/-- Modelled from the spec: `MIN_FRAMES_FOR_SAVE` is "a small fixed constant
(tens of frames)"; its defining header is not present under `src/`. The value
30 is used here; nothing below depends on the specific positive value. -/
def MIN_FRAMES_FOR_SAVE : Int := 30

/-- The fields of `ReplayBufferState` that `ReplayBuffer_Save` reads or
writes. The event handles are modelled by the outcome record below. -/
structure ReplayBufferState where
  isBuffering : Bool
  state : ReplayState
  framesCaptured : Int
  saveSuccess : Bool
deriving DecidableEq, Repr

/-- What a `ReplayBuffer_Save` call did: its `BOOL` return, whether it set the
save-request event (`SetEvent(state->hSaveRequestEvent)`, line 321), and
whether it blocked on the completion event (`WaitForSingleObject(...)`,
line 324). -/
structure SaveOutcome where
  result : Bool
  signaledSaveRequest : Bool
  waitedOnCompletion : Bool
deriving DecidableEq, Repr

/-- `ReplayBuffer_Save` from `replay_buffer.c` lines 293-332. The guards, in
order: NULL state/path or not buffering; state machine not `CAPTURING`
(`InterlockedCompareExchange` with equal exchange/comparand is a pure read);
`framesCaptured < MIN_FRAMES_FOR_SAVE`. Each rejected call returns FALSE
before the save-request event is set and before the completion wait.
`completionSignaled` models whether the capture thread signals
`hSaveCompleteEvent` within the 30 s timeout, and `saveSuccessAfter` the
`state->saveSuccess` value it published. -/
def ReplayBuffer_Save (st : ReplayBufferState) (pathNonNull : Bool)
    (completionSignaled : Bool) (saveSuccessAfter : Bool) : SaveOutcome :=
  if pathNonNull = false ∨ st.isBuffering = false then
    { result := false, signaledSaveRequest := false, waitedOnCompletion := false }
  else if st.state ≠ ReplayState.capturing then
    { result := false, signaledSaveRequest := false, waitedOnCompletion := false }
  else if st.framesCaptured < MIN_FRAMES_FOR_SAVE then
    { result := false, signaledSaveRequest := false, waitedOnCompletion := false }
  else if completionSignaled then
    { result := saveSuccessAfter, signaledSaveRequest := true, waitedOnCompletion := true }
  else
    { result := false, signaledSaveRequest := true, waitedOnCompletion := true }

/-! Concrete states used by counterexamples and witnesses. -/

/-- A one-byte encoded frame with the given timestamp. -/
def mkFrame (ts : Int) : EncodedFrame :=
  { data := some [0], size := 1, timestamp := ts, duration := 333333, isKeyframe := false }

/-- The buffer produced by `SampleBuffer_Init 1 30 640 480 medium` (capacity
clamped up to 100, maxDuration one second). -/
def demoBuffer : SampleBuffer :=
  { samples := List.replicate 100 emptySample
    capacity := 100
    count := 0
    head := 0
    tail := 0
    maxDuration := 10000000
    width := 640
    height := 480
    fps := 30
    quality := QualityPreset.medium
    initialized := true }

/-- An `Add` sequence with non-monotone timestamps that overflows the span
bound: one frame at t = 0.5 s, 99 frames at t = 0 (filling the buffer to its
capacity of 100), then one frame at t = 1.2 s. The final `Add` finds the
span within bounds (1.2 s − 0.5 s ≤ 1 s), but the capacity loop then evicts
the 0.5 s sample, leaving t = 0 as the oldest next to the new t = 1.2 s. -/
def overfillFrames : List EncodedFrame :=
  mkFrame 5000000 :: (List.replicate 99 (mkFrame 0) ++ [mkFrame 12000000])

/-- A reachable buffer state holding two live samples with equal timestamps. -/
def twoEqualTsBuffer : SampleBuffer :=
  addAll demoBuffer [mkFrame 0, mkFrame 0]

/-- The snapshot `SampleBuffer_GetSamplesForMuxing` returns on
`twoEqualTsBuffer`: both re-based timestamps are 0. -/
def twoEqualTsSnapshot : List MuxerSample :=
  [{ data := some [0], size := 1, timestamp := 0, duration := 333333, isKeyframe := false },
    { data := some [0], size := 1, timestamp := 0, duration := 333333, isKeyframe := false }]

/-- Submission calls with a valid texture and an all-success environment. -/
def goodCalls (ts : List Int) : List SubmitCall :=
  ts.map fun t => { textureNonNull := true, timestamp := t, env := goodEnv }

/-! Theorems. -/

/-- C10: `SampleBuffer_GetSamplesForMuxing` never mutates the buffer:
`count`, `head`, `tail`, `maxDuration` and the stored sample slots are
identical before and after the call, for every buffer state (including the
uninitialized, empty and allocation-failure paths). -/
theorem snapshot_preserves_buffer (buf : SampleBuffer) (arrayAllocOk : Bool)
    (sampleAllocOk : Nat → Bool) :
    (SampleBuffer_GetSamplesForMuxing buf arrayAllocOk sampleAllocOk).1.count = buf.count ∧
      (SampleBuffer_GetSamplesForMuxing buf arrayAllocOk sampleAllocOk).1.head = buf.head ∧
      (SampleBuffer_GetSamplesForMuxing buf arrayAllocOk sampleAllocOk).1.tail = buf.tail ∧
      (SampleBuffer_GetSamplesForMuxing buf arrayAllocOk sampleAllocOk).1.maxDuration =
        buf.maxDuration ∧
      (SampleBuffer_GetSamplesForMuxing buf arrayAllocOk sampleAllocOk).1.samples =
        buf.samples := by
  have h : (SampleBuffer_GetSamplesForMuxing buf arrayAllocOk sampleAllocOk).1 = buf := by
    unfold SampleBuffer_GetSamplesForMuxing
    split
    · rfl
    · split
      · rfl
      · split <;> rfl
  rw [h]
  exact ⟨rfl, rfl, rfl, rfl, rfl⟩

/-- C4: `ReplayBuffer_Save` fails fast: whenever the controller state is not
`CAPTURING` or fewer than `MIN_FRAMES_FOR_SAVE` frames are captured, it
returns false without signaling the save-request event and without blocking
on the completion wait. -/
theorem save_fails_fast (st : ReplayBufferState)
    (pathNonNull completionSignaled saveSuccessAfter : Bool)
    (h : st.state ≠ ReplayState.capturing ∨ st.framesCaptured < MIN_FRAMES_FOR_SAVE) :
    ReplayBuffer_Save st pathNonNull completionSignaled saveSuccessAfter =
      { result := false, signaledSaveRequest := false, waitedOnCompletion := false } := by
  unfold ReplayBuffer_Save
  split_ifs with h1 h2 h3 h4 <;> first
    | rfl
    | (exact absurd h (by simp [h2, h3]))

/-- Witness for C4 at a concrete input: a capturing state with only 5 frames
is rejected without any signaling. -/
theorem save_fails_fast_witness :
    ((5 : Int) < MIN_FRAMES_FOR_SAVE) ∧
      ReplayBuffer_Save
          { isBuffering := true, state := ReplayState.capturing, framesCaptured := 5,
            saveSuccess := false } true true true =
        { result := false, signaledSaveRequest := false, waitedOnCompletion := false } :=
  ⟨by decide, save_fails_fast _ true true true (Or.inr (by decide))⟩

/-- C9: after every successful `SampleBuffer_Add`, the caller's frame struct
is cleared: its data pointer is NULL and its size is 0, so the buffer holds
exclusive ownership of the sample bytes. -/
theorem add_clears_frame (buf : SampleBuffer) (frame : EncodedFrame)
    (h : (SampleBuffer_Add buf frame).2.2 = true) :
    (SampleBuffer_Add buf frame).2.1.data = none ∧
      (SampleBuffer_Add buf frame).2.1.size = 0 := by
  by_cases hc : buf.initialized = false ∨ frame.data = none
  · rw [SampleBuffer_Add, if_pos hc] at h
    exact absurd h (by simp)
  · rw [SampleBuffer_Add, if_neg hc]
    exact ⟨rfl, rfl⟩

/-- Witness for C9 at a concrete input: adding a one-byte frame to a freshly
initialized buffer succeeds and clears the frame. -/
theorem add_clears_frame_witness :
    (SampleBuffer_Add demoBuffer (mkFrame 0)).2.2 = true ∧
      (SampleBuffer_Add demoBuffer (mkFrame 0)).2.1.data = none ∧
      (SampleBuffer_Add demoBuffer (mkFrame 0)).2.1.size = 0 :=
  ⟨by decide, add_clears_frame demoBuffer (mkFrame 0) (by decide)⟩

/-- C7 counterexample: `SampleBuffer_Init` does not set the capacity to
`durationSeconds * fps * 1.5` for all inputs: at `durationSeconds = 1`,
`fps = 30` the formula gives 45 but the code clamps the capacity up to 100. -/
theorem init_capacity_counterexample :
    (SampleBuffer_Init 1 30 640 480 QualityPreset.medium true).map
        (fun b => b.capacity) = some 100 ∧
      ¬ (SampleBuffer_Init 1 30 640 480 QualityPreset.medium true).map
          (fun b => b.capacity) = some (Int.toNat (Int.tdiv (1 * 30 * 3) 2)) := by
  decide

/-- C7 (amended): `SampleBuffer_Init` sets the capacity to
`durationSeconds * fps * 1.5` clamped into `[100, 100000]`; inputs whose
formula value lies inside the clamp (such as `durationSeconds = 10, fps = 30`,
giving 450) get exactly the formula value. -/
theorem init_capacity_clamped (d fps w h : Int) (q : QualityPreset) :
    (SampleBuffer_Init d fps w h q true).map (fun b => b.capacity) =
      some (Int.toNat (min 100000 (max 100 (Int.tdiv (d * fps * 3) 2)))) := by
  unfold SampleBuffer_Init
  simp only [if_true, Option.map_some']
  congr 2
  split_ifs <;> omega

/-- C3: the shutdown flush loop in `BufferThreadProc` drains nothing — for
every fuel bound, encoder state and buffer state, the loop leaves the sample
buffer unchanged, because `NVENCEncoder_Flush` unconditionally returns
FALSE — even though an encoder can reach shutdown with in-flight
submissions (here: three successful submissions, none drained,
`pendingCount = 3`). -/
theorem shutdown_flush_drains_nothing :
    (∀ (fuel : Nat) (enc : NVENCEncoder) (buf : SampleBuffer),
        shutdownFlushDrain fuel enc buf = buf) ∧
      (submitSeq (freshEncoder 30) (goodCalls [0, 333333, 666666])).1.pendingCount = 3 := by
  constructor
  · intro fuel enc buf
    cases fuel <;> rfl
  · decide

set_option maxRecDepth 40000 in
/-- C1 counterexample: the span invariant does not hold for every `Add`
sequence. Starting from `SampleBuffer_Init 1 30 ...` (capacity 100,
maxDuration 1 s) and adding `overfillFrames` (non-monotone timestamps), the
final buffer holds 100 samples spanning 1.2 s > 1 s: the final `Add` passes
the duration loop (1.2 s − 0.5 s ≤ 1 s) but the capacity loop then evicts
the 0.5 s sample, exposing a t = 0 sample as the oldest. -/
theorem add_span_counterexample :
    SampleBuffer_Init 1 30 640 480 QualityPreset.medium true = some demoBuffer ∧
      ¬ spanInvariant (addAll demoBuffer overfillFrames) := by
  constructor
  · decide
  · decide

/-- C5 counterexample: `SampleBuffer_GetSamplesForMuxing` does not always
return strictly ascending timestamps: a reachable buffer holding two live
samples with equal timestamps yields a snapshot whose timestamps are
`[0, 0]`. -/
theorem snapshot_ordering_counterexample :
    0 < twoEqualTsBuffer.count ∧
      (SampleBuffer_GetSamplesForMuxing twoEqualTsBuffer true fun _ => true).2.2 =
        some twoEqualTsSnapshot ∧
      ¬ (twoEqualTsSnapshot.map fun s => s.timestamp).Chain' (· < ·) := by
  refine ⟨by decide, by decide, ?_⟩
  intro h
  rw [show (twoEqualTsSnapshot.map fun s => s.timestamp) = [0, 0] from rfl] at h
  exact absurd (List.chain'_cons.mp h).1 (lt_irrefl 0)

/-- Unfolding lemma for `submitSeq` on a cons cell. -/
theorem submitSeq_cons (enc : NVENCEncoder) (c : SubmitCall) (cs : List SubmitCall) :
    submitSeq enc (c :: cs) =
      ((submitSeq (NVENCEncoder_SubmitTexture enc c.textureNonNull c.timestamp c.env).1 cs).1,
        (NVENCEncoder_SubmitTexture enc c.textureNonNull c.timestamp c.env).2 ::
          (submitSeq (NVENCEncoder_SubmitTexture enc c.textureNonNull c.timestamp c.env).1
              cs).2) :=
  rfl

/-- A call result that is not a submission contributes no IDR flag. -/
theorem idrFlags_cons_skip (r : SubmitResult) (rs : List SubmitResult)
    (h : ∀ b, r ≠ SubmitResult.submitted b) :
    idrFlags (r :: rs) = idrFlags rs := by
  cases r <;> try simp [idrFlags, List.filterMap_cons]
  exact absurd rfl (h _)

/-- A submission contributes its forced-IDR flag. -/
theorem idrFlags_cons_submitted (b : Bool) (rs : List SubmitResult) :
    idrFlags (SubmitResult.submitted b :: rs) = b :: idrFlags rs := by
  simp [idrFlags, List.filterMap_cons]

/-- A successful `NVENCEncoder_SubmitTexture` call with a valid texture, a
free slot and all external calls succeeding performs exactly the slot
bookkeeping of `nvenc_encoder.c` lines 555-558. -/
theorem submitTexture_good (enc : NVENCEncoder) (ts : Int)
    (hinit : enc.initialized = true) (hp : enc.pendingCount < (NUM_BUFFERS : Int)) :
    NVENCEncoder_SubmitTexture enc true ts goodEnv =
      ({ enc with
          pendingTimestamps := enc.pendingTimestamps.set enc.submitIndex ts
          submitIndex := (enc.submitIndex + 1) % NUM_BUFFERS
          pendingCount := enc.pendingCount + 1
          frameNumber := enc.frameNumber + 1 },
        SubmitResult.submitted (decide (enc.frameNumber % (enc.fps * 2) = 0))) := by
  unfold NVENCEncoder_SubmitTexture
  rw [if_neg (by simp [hinit]), if_neg (not_le.mpr hp)]
  simp [goodEnv]

/-- A sequence of all-success submissions that fits into the free slots
succeeds call by call, incrementing `pendingCount` once per call. -/
theorem submitSeq_good_all (ts : List Int) : ∀ enc : NVENCEncoder,
    enc.initialized = true → enc.pendingCount + (ts.length : Int) ≤ (NUM_BUFFERS : Int) →
      (submitSeq enc (goodCalls ts)).1.initialized = true ∧
        (submitSeq enc (goodCalls ts)).1.pendingCount =
          enc.pendingCount + (ts.length : Int) ∧
        ∀ r ∈ (submitSeq enc (goodCalls ts)).2, ∃ b, r = SubmitResult.submitted b := by
  induction ts with
  | nil =>
    intro enc h1 _
    refine ⟨h1, by simp [goodCalls, submitSeq], ?_⟩
    intro r hr
    simp [goodCalls, submitSeq] at hr
  | cons t rest ih =>
    intro enc h1 h2
    have hlen : ((t :: rest).length : Int) = (rest.length : Int) + 1 := by
      push_cast [List.length_cons]; ring
    have hp : enc.pendingCount < (NUM_BUFFERS : Int) := by
      rw [hlen] at h2
      have : (0 : Int) ≤ (rest.length : Int) := Int.natCast_nonneg _
      omega
    have hstep : goodCalls (t :: rest) =
        ({ textureNonNull := true, timestamp := t, env := goodEnv } : SubmitCall) ::
          goodCalls rest := by
      simp [goodCalls]
    rw [hstep, submitSeq_cons]
    simp only
    rw [submitTexture_good enc t h1 hp]
    have hih := ih { enc with
        pendingTimestamps := enc.pendingTimestamps.set enc.submitIndex t
        submitIndex := (enc.submitIndex + 1) % NUM_BUFFERS
        pendingCount := enc.pendingCount + 1
        frameNumber := enc.frameNumber + 1 } h1 (by
          rw [hlen] at h2
          simp only [NUM_BUFFERS] at h2 ⊢
          push_cast at h2 ⊢
          omega)
    refine ⟨hih.1, ?_, ?_⟩
    · rw [hih.2.1, hlen]
      simp only
      ring
    · intro r hr
      rcases List.mem_cons.mp hr with hr | hr
      · exact ⟨_, hr⟩
      · exact hih.2.2 r hr

/-- C6: after 8 successful submissions with no completions drained, all
`NUM_BUFFERS = 8` slots are pending and the 9th `NVENCEncoder_SubmitTexture`
call is rejected by backpressure: it returns false having changed nothing but
the rate-limit diagnostic counter (no slot written, no index advanced,
nothing queued). -/
theorem ninth_submit_rejected (fps : Nat) (ts8 : List Int) (h8 : ts8.length = 8)
    (ts9 : Int) (env9 : SubmitEnv) :
    (∀ r ∈ (submitSeq (freshEncoder fps) (goodCalls ts8)).2,
        ∃ b, r = SubmitResult.submitted b) ∧
      (submitSeq (freshEncoder fps) (goodCalls ts8)).1.pendingCount = 8 ∧
      NVENCEncoder_SubmitTexture (submitSeq (freshEncoder fps) (goodCalls ts8)).1 true ts9
          env9 =
        ({ (submitSeq (freshEncoder fps) (goodCalls ts8)).1 with
            pipelineFullCount :=
              (submitSeq (freshEncoder fps) (goodCalls ts8)).1.pipelineFullCount + 1 },
          SubmitResult.rejectedFull) := by
  have hall := submitSeq_good_all ts8 (freshEncoder fps) rfl
    (by simp [freshEncoder, h8, NUM_BUFFERS])
  have hcount : (submitSeq (freshEncoder fps) (goodCalls ts8)).1.pendingCount = 8 := by
    rw [hall.2.1]
    simp [freshEncoder, h8]
  refine ⟨hall.2.2, hcount, ?_⟩
  unfold NVENCEncoder_SubmitTexture
  rw [if_neg (by simp [hall.1]), if_pos (by rw [hcount]; norm_num [NUM_BUFFERS])]

/-- Witness for C6 at a concrete input: eight submissions at timestamps
0..7, then a 9th at 99, which is rejected. -/
theorem ninth_submit_rejected_witness :
    ([0, 1, 2, 3, 4, 5, 6, 7] : List Int).length = 8 ∧
      (NVENCEncoder_SubmitTexture
          (submitSeq (freshEncoder 30) (goodCalls [0, 1, 2, 3, 4, 5, 6, 7])).1 true 99
          goodEnv).2 =
        SubmitResult.rejectedFull := by
  refine ⟨by decide, ?_⟩
  have h := ninth_submit_rejected 30 [0, 1, 2, 3, 4, 5, 6, 7] (by decide) 99 goodEnv
  rw [h.2.2]

/-- One `NVENCEncoder_SubmitTexture` call either leaves `frameNumber` and
`fps` unchanged and submits nothing, or increments `frameNumber` and submits
a picture whose forced-IDR flag is `frameNumber % (fps * 2) == 0`
(`nvenc_encoder.c` lines 532-535 and 558). -/
theorem submitTexture_frame_cases (enc : NVENCEncoder) (t : Bool) (ts : Int)
    (env : SubmitEnv) :
    ((NVENCEncoder_SubmitTexture enc t ts env).1.fps = enc.fps ∧
        (NVENCEncoder_SubmitTexture enc t ts env).1.frameNumber = enc.frameNumber ∧
        ∀ b, (NVENCEncoder_SubmitTexture enc t ts env).2 ≠ SubmitResult.submitted b) ∨
      ((NVENCEncoder_SubmitTexture enc t ts env).1.fps = enc.fps ∧
        (NVENCEncoder_SubmitTexture enc t ts env).1.frameNumber = enc.frameNumber + 1 ∧
        (NVENCEncoder_SubmitTexture enc t ts env).2 =
          SubmitResult.submitted (decide (enc.frameNumber % (enc.fps * 2) = 0))) := by
  unfold NVENCEncoder_SubmitTexture
  split_ifs <;> simp

/-- Over any call sequence, the forced-IDR flags of the successful
submissions, in order, are exactly `(frameNumber + i) % (fps * 2) == 0` for
`i = 0, 1, 2, ...`. -/
theorem submitSeq_idrFlags (calls : List SubmitCall) : ∀ enc : NVENCEncoder,
    ∃ m : Nat, idrFlags (submitSeq enc calls).2 =
      (List.range m).map fun i => decide ((enc.frameNumber + i) % (enc.fps * 2) = 0) := by
  induction calls with
  | nil => intro enc; exact ⟨0, by simp [submitSeq, idrFlags]⟩
  | cons c cs ih =>
    intro enc
    obtain ⟨m, hm⟩ := ih (NVENCEncoder_SubmitTexture enc c.textureNonNull c.timestamp c.env).1
    rcases submitTexture_frame_cases enc c.textureNonNull c.timestamp c.env with
      ⟨hfps, hfn, hne⟩ | ⟨hfps, hfn, hr⟩
    · refine ⟨m, ?_⟩
      rw [submitSeq_cons]
      simp only
      rw [idrFlags_cons_skip _ _ hne, hm, hfn, hfps]
    · refine ⟨m + 1, ?_⟩
      rw [submitSeq_cons]
      simp only
      rw [hr, idrFlags_cons_submitted, hm, hfn, hfps]
      have harith : ∀ a : Nat, enc.frameNumber + 1 + a = enc.frameNumber + (a + 1) :=
        fun a => by omega
      rw [List.range_succ_eq_map, List.map_cons, List.map_map]
      refine congrArg₂ List.cons ?_ ?_
      · norm_num
      · refine List.map_congr_left fun a _ => ?_
        simp only [Function.comp_apply, Nat.succ_eq_add_one]
        rw [harith a]

/-- C8: over every sequence of `NVENCEncoder_SubmitTexture` calls from a
fresh encoder, every successful submission whose ordinal `n` (0-based) is a
multiple of `fps * 2` is submitted with the forced-IDR picture flag, so a
self-contained sync sample is forced once per two seconds' worth of
submitted frames. -/
theorem forced_idr_every_two_seconds (fps : Nat) (calls : List SubmitCall) (n : Nat)
    (hn : n < (idrFlags (submitSeq (freshEncoder fps) calls).2).length)
    (hmod : n % (fps * 2) = 0) :
    (idrFlags (submitSeq (freshEncoder fps) calls).2).getD n false = true := by
  obtain ⟨m, hm⟩ := submitSeq_idrFlags calls (freshEncoder fps)
  rw [hm] at hn ⊢
  have hnm : n < m := by simpa using hn
  rw [List.getD_eq_getElem?_getD, List.getElem?_map, List.getElem?_range hnm]
  simp [freshEncoder, hmod]

/-- Witness for C8 at a concrete input: with `fps = 1` (period 2) and three
successful submissions, submission 2 carries the forced-IDR flag. -/
theorem forced_idr_every_two_seconds_witness :
    2 < (idrFlags (submitSeq (freshEncoder 1) (goodCalls [0, 5, 9])).2).length ∧
      2 % (1 * 2) = 0 ∧
      (idrFlags (submitSeq (freshEncoder 1) (goodCalls [0, 5, 9])).2).getD 2 false = true :=
  ⟨by decide, by decide,
    forced_idr_every_two_seconds 1 (goodCalls [0, 5, 9]) 2 (by decide) (by decide)⟩

/-! Lemmas about the live region of the circular buffer. -/

/-- Two in-range logical offsets from the same base are equal when their
wrapped indices coincide. -/
theorem mod_offset_inj (n t i j : Nat) (hi : i < n) (hj : j < n)
    (h : (t + i) % n = (t + j) % n) : i = j := by
  have hij : Nat.ModEq n i j := Nat.ModEq.add_left_cancel' t h
  have : i % n = j % n := hij
  rwa [Nat.mod_eq_of_lt hi, Nat.mod_eq_of_lt hj] at this

/-- `getD` after `set` at a different index. -/
theorem getD_set_ne (l : List BufferedSample) (i j : Nat) (a : BufferedSample)
    (h : i ≠ j) : (l.set i a).getD j default = l.getD j default := by
  simp [List.getD_eq_getElem?_getD, List.getElem?_set_ne h]

/-- `getD` after `set` at the same in-range index. -/
theorem getD_set_self (l : List BufferedSample) (i : Nat) (a : BufferedSample)
    (h : i < l.length) : (l.set i a).getD i default = a := by
  simp [List.getD_eq_getElem?_getD, List.getElem?_set_self, h]

/-- The live list has one entry per counted sample. -/
theorem live_length (buf : SampleBuffer) : (live buf).length = buf.count := by
  simp [live]

/-- Indexing the live list is `liveAt`. -/
theorem live_getD (buf : SampleBuffer) (i : Nat) (h : i < buf.count) :
    (live buf).getD i default = liveAt buf i := by
  simp [live, List.getD_eq_getElem?_getD, List.getElem?_map, List.getElem?_range h]

/-- On a nonempty buffer, the live list starts at the tail sample. -/
theorem live_eq_cons (buf : SampleBuffer) (h : 0 < buf.count) :
    live buf = liveAt buf 0 :: (List.range (buf.count - 1)).map fun i => liveAt buf (i + 1) := by
  unfold live
  obtain ⟨m, hm⟩ : ∃ m, buf.count = m + 1 := ⟨buf.count - 1, by omega⟩
  rw [hm, List.range_succ_eq_map, List.map_cons, List.map_map]
  have hms : m + 1 - 1 = m := by omega
  rw [hms]
  rfl

/-- The tail slot read by the C eviction loop is live index 0. -/
theorem tail_slot_eq_liveAt (buf : SampleBuffer) (htail : buf.tail < buf.capacity) :
    buf.samples.getD buf.tail default = liveAt buf 0 := by
  unfold liveAt
  rw [Nat.add_zero, Nat.mod_eq_of_lt htail]

/-- The oldest timestamp of a nonempty buffer is its live head's. -/
theorem oldestTs_mem_live (buf : SampleBuffer) (h : 0 < buf.count) :
    liveAt buf 0 ∈ live buf ∧ oldestTs buf = (liveAt buf 0).timestamp := by
  refine ⟨?_, rfl⟩
  rw [live_eq_cons buf h]
  exact List.mem_cons_self _ _

/-- In a timestamp-sorted live list the head carries the minimum. -/
theorem sorted_head_min (buf : SampleBuffer) (h : 0 < buf.count)
    (hs : ((live buf).map fun s => s.timestamp).Pairwise (· ≤ ·)) :
    ∀ x ∈ live buf, oldestTs buf ≤ x.timestamp := by
  intro x hx
  rw [live_eq_cons buf h] at hs hx
  rw [List.map_cons, List.pairwise_cons] at hs
  rcases List.mem_cons.mp hx with rfl | hx
  · exact le_refl _
  · exact hs.1 _ (List.mem_map_of_mem (fun s => s.timestamp) hx)

/-- `evictOldestOnce` preserves well-formedness on a nonempty buffer. -/
theorem evictOldestOnce_WF (buf : SampleBuffer) (hWF : WF buf) (hc : 0 < buf.count) :
    WF (evictOldestOnce buf) := by
  obtain ⟨hlen, hcnt, hhead, htail, hcap⟩ := hWF
  refine ⟨?_, ?_, ?_, ?_, hcap⟩
  · simpa [evictOldestOnce] using hlen
  · show buf.count - 1 ≤ buf.capacity
    omega
  · show buf.head = ((buf.tail + 1) % buf.capacity + (buf.count - 1)) % buf.capacity
    rw [Nat.mod_add_mod]
    have harith : buf.tail + 1 + (buf.count - 1) = buf.tail + buf.count := by omega
    rw [harith, ← hhead]
  · exact Nat.mod_lt _ hcap

/-- Evicting the tail sample drops the head of the live list: the freed slot
at the old tail is outside the remaining live window. -/
theorem evictOldestOnce_live (buf : SampleBuffer) (hWF : WF buf) (hc : 0 < buf.count) :
    live (evictOldestOnce buf) = (live buf).drop 1 := by
  obtain ⟨hlen, hcnt, hhead, htail, hcap⟩ := hWF
  have hdrop : (live buf).drop 1 =
      (List.range (buf.count - 1)).map fun i => liveAt buf (i + 1) := by
    rw [live_eq_cons buf hc]
    rfl
  rw [hdrop]
  show (List.range (buf.count - 1)).map (liveAt (evictOldestOnce buf)) = _
  refine List.map_congr_left fun i hi => ?_
  rw [List.mem_range] at hi
  show (buf.samples.set buf.tail (FreeSample (buf.samples.getD buf.tail default))).getD
      (((buf.tail + 1) % buf.capacity + i) % buf.capacity) default = liveAt buf (i + 1)
  rw [Nat.mod_add_mod]
  have harith : buf.tail + 1 + i = buf.tail + (i + 1) := by omega
  rw [harith]
  unfold liveAt
  apply getD_set_ne
  intro heq
  have h0 : (buf.tail + 0) % buf.capacity = (buf.tail + (i + 1)) % buf.capacity := by
    rw [Nat.add_zero, Nat.mod_eq_of_lt htail]
    exact heq
  have := mod_offset_inj buf.capacity buf.tail 0 (i + 1) hcap (by omega) h0
  omega

/-- Unfolding lemma for the duration eviction loop at positive fuel. -/
theorem evictWhileOverDuration_succ (fuel : Nat) (buf : SampleBuffer) (T : Int) :
    evictWhileOverDuration (fuel + 1) buf T =
      if buf.count = 0 then buf
      else if T - (buf.samples.getD buf.tail default).timestamp ≤ buf.maxDuration then buf
      else evictWhileOverDuration fuel (evictOldestOnce buf) T :=
  rfl

/-- Unfolding lemma for the capacity eviction loop at positive fuel. -/
theorem evictWhileAtCapacity_succ (fuel : Nat) (buf : SampleBuffer) :
    evictWhileAtCapacity (fuel + 1) buf =
      if buf.capacity ≤ buf.count then evictWhileAtCapacity fuel (evictOldestOnce buf)
      else buf :=
  rfl

/-- Specification of the duration eviction loop: with fuel at least `count`
it preserves well-formedness, capacity, `maxDuration` and `initialized`,
leaves a suffix of the live list, and terminates with either an empty buffer
or an in-bound span against the incoming timestamp. -/
theorem evictWhileOverDuration_spec (fuel : Nat) : ∀ (buf : SampleBuffer) (T : Int),
    WF buf → buf.count ≤ fuel →
      WF (evictWhileOverDuration fuel buf T) ∧
        (evictWhileOverDuration fuel buf T).capacity = buf.capacity ∧
        (evictWhileOverDuration fuel buf T).maxDuration = buf.maxDuration ∧
        (evictWhileOverDuration fuel buf T).initialized = buf.initialized ∧
        (∃ k, live (evictWhileOverDuration fuel buf T) = (live buf).drop k) ∧
        ((evictWhileOverDuration fuel buf T).count = 0 ∨
          T - oldestTs (evictWhileOverDuration fuel buf T) ≤ buf.maxDuration) := by
  induction fuel with
  | zero =>
    intro buf T hWF hf
    exact ⟨hWF, rfl, rfl, rfl, ⟨0, (List.drop_zero _).symm⟩, Or.inl (Nat.le_zero.mp hf)⟩
  | succ fuel ih =>
    intro buf T hWF hf
    rw [evictWhileOverDuration_succ]
    by_cases h0 : buf.count = 0
    · rw [if_pos h0]
      exact ⟨hWF, rfl, rfl, rfl, ⟨0, (List.drop_zero _).symm⟩, Or.inl h0⟩
    · rw [if_neg h0]
      by_cases hspan : T - (buf.samples.getD buf.tail default).timestamp ≤ buf.maxDuration
      · rw [if_pos hspan]
        refine ⟨hWF, rfl, rfl, rfl, ⟨0, (List.drop_zero _).symm⟩, Or.inr ?_⟩
        rwa [tail_slot_eq_liveAt buf hWF.2.2.2.1] at hspan
      · rw [if_neg hspan]
        have hc : 0 < buf.count := Nat.pos_of_ne_zero h0
        have hWF' := evictOldestOnce_WF buf hWF hc
        have hf' : (evictOldestOnce buf).count ≤ fuel := by
          show buf.count - 1 ≤ fuel
          omega
        obtain ⟨h1, h2, h3, h4, ⟨k, hk⟩, h6⟩ := ih (evictOldestOnce buf) T hWF' hf'
        refine ⟨h1, h2, h3, h4, ⟨k + 1, ?_⟩, h6⟩
        rw [hk, evictOldestOnce_live buf hWF hc,
          (List.drop_drop k 1 (live buf)).trans (by rw [Nat.add_comm])]

/-- Specification of the capacity eviction loop: with fuel at least `count`
it preserves well-formedness and the scalar fields, leaves a suffix of the
live list, and terminates with `count < capacity`. -/
theorem evictWhileAtCapacity_spec (fuel : Nat) : ∀ buf : SampleBuffer,
    WF buf → buf.count ≤ fuel →
      WF (evictWhileAtCapacity fuel buf) ∧
        (evictWhileAtCapacity fuel buf).capacity = buf.capacity ∧
        (evictWhileAtCapacity fuel buf).maxDuration = buf.maxDuration ∧
        (evictWhileAtCapacity fuel buf).initialized = buf.initialized ∧
        (∃ k, live (evictWhileAtCapacity fuel buf) = (live buf).drop k) ∧
        (evictWhileAtCapacity fuel buf).count < buf.capacity := by
  induction fuel with
  | zero =>
    intro buf hWF hf
    have h0 : buf.count = 0 := Nat.le_zero.mp hf
    refine ⟨hWF, rfl, rfl, rfl, ⟨0, (List.drop_zero _).symm⟩, ?_⟩
    show buf.count < buf.capacity
    rw [h0]
    exact hWF.2.2.2.2
  | succ fuel ih =>
    intro buf hWF hf
    rw [evictWhileAtCapacity_succ]
    by_cases hfull : buf.capacity ≤ buf.count
    · rw [if_pos hfull]
      have hc : 0 < buf.count := lt_of_lt_of_le hWF.2.2.2.2 hfull
      have hWF' := evictOldestOnce_WF buf hWF hc
      have hf' : (evictOldestOnce buf).count ≤ fuel := by
        show buf.count - 1 ≤ fuel
        omega
      obtain ⟨h1, h2, h3, h4, ⟨k, hk⟩, h6⟩ := ih (evictOldestOnce buf) hWF' hf'
      refine ⟨h1, h2, h3, h4, ⟨k + 1, ?_⟩, h6⟩
      rw [hk, evictOldestOnce_live buf hWF hc,
        (List.drop_drop k 1 (live buf)).trans (by rw [Nat.add_comm])]
    · rw [if_neg hfull]
      exact ⟨hWF, rfl, rfl, rfl, ⟨0, (List.drop_zero _).symm⟩, lt_of_not_le hfull⟩

/-- Specification of `EvictOldSamples`: preserves well-formedness and the
scalar fields, leaves a suffix of the live list, ends strictly below
capacity, and — when the live timestamps are sorted — ends either empty or
with an in-bound span against the incoming timestamp. -/
theorem EvictOldSamples_spec (buf : SampleBuffer) (T : Int) (hWF : WF buf) :
    WF (EvictOldSamples buf T) ∧
      (EvictOldSamples buf T).capacity = buf.capacity ∧
      (EvictOldSamples buf T).maxDuration = buf.maxDuration ∧
      (EvictOldSamples buf T).initialized = buf.initialized ∧
      (∃ k, live (EvictOldSamples buf T) = (live buf).drop k) ∧
      (EvictOldSamples buf T).count < buf.capacity ∧
      (((live buf).map fun s => s.timestamp).Pairwise (· ≤ ·) →
        ((EvictOldSamples buf T).count = 0 ∨ T - oldestTs (EvictOldSamples buf T) ≤
          buf.maxDuration)) := by
  unfold EvictOldSamples
  by_cases h0 : buf.count = 0
  · rw [if_pos h0]
    exact ⟨hWF, rfl, rfl, rfl, ⟨0, (List.drop_zero _).symm⟩,
      lt_of_eq_of_lt h0 hWF.2.2.2.2, fun _ => Or.inl h0⟩
  · rw [if_neg h0]
    obtain ⟨w1, w2, w3, w4, ⟨k1, hk1⟩, w6⟩ :=
      evictWhileOverDuration_spec buf.count buf T hWF (le_refl _)
    obtain ⟨v1, v2, v3, v4, ⟨k2, hk2⟩, v6⟩ :=
      evictWhileAtCapacity_spec (evictWhileOverDuration buf.count buf T).count
        (evictWhileOverDuration buf.count buf T) w1 (le_refl _)
    refine ⟨v1, v2.trans w2, v3.trans w3, v4.trans w4,
      ⟨k2 + k1, by rw [hk2, hk1, (List.drop_drop k2 k1 (live buf)).trans
        (by rw [Nat.add_comm])]⟩, by rw [← w2]; exact v6, ?_⟩
    intro hsorted
    by_cases hres0 :
        (evictWhileAtCapacity (evictWhileOverDuration buf.count buf T).count
          (evictWhileOverDuration buf.count buf T)).count = 0
    · exact Or.inl hres0
    · refine Or.inr ?_
      set buf1 := evictWhileOverDuration buf.count buf T with hbuf1
      set buf2 := evictWhileAtCapacity buf1.count buf1 with hbuf2
      have hc2 : 0 < buf2.count := Nat.pos_of_ne_zero hres0
      have hc1 : 0 < buf1.count := by
        by_contra hc
        push_neg at hc
        have h10 : buf1.count = 0 := Nat.le_zero.mp hc
        have : (live buf1).length = 0 := by rw [live_length, h10]
        have hnil : live buf1 = [] := List.length_eq_zero.mp this
        have : live buf2 = [] := by
          rw [hk2, hnil, List.drop_nil]
        have : (live buf2).length = 0 := by rw [this]; rfl
        rw [live_length] at this
        omega
      have hspan1 : T - oldestTs buf1 ≤ buf.maxDuration := by
        rcases w6 with h | h
        · omega
        · exact h
      have hsorted1 : ((live buf1).map fun s => s.timestamp).Pairwise (· ≤ ·) := by
        rw [hk1]
        exact hsorted.sublist ((List.drop_sublist k1 (live buf)).map _)
      have hmem : liveAt buf2 0 ∈ live buf1 := by
        have hmem2 := (oldestTs_mem_live buf2 hc2).1
        rw [hk2] at hmem2
        exact List.drop_subset k2 (live buf1) hmem2
      have hmin := sorted_head_min buf1 hc1 hsorted1 (liveAt buf2 0) hmem
      have : oldestTs buf1 ≤ oldestTs buf2 := by
        rw [(oldestTs_mem_live buf2 hc2).2]
        exact hmin
      omega

/-- `getD` on an append, inside the first part. -/
theorem getD_append_left (l1 l2 : List BufferedSample) (i : Nat) (h : i < l1.length) :
    (l1 ++ l2).getD i default = l1.getD i default := by
  simp [List.getD_eq_getElem?_getD, List.getElem?_append_left h]

/-- `getD` on an append, at the boundary slot. -/
theorem getD_append_at_length (l1 : List BufferedSample) (a : BufferedSample) :
    (l1 ++ [a]).getD l1.length default = a := by
  rw [List.getD_eq_getElem?_getD, List.getElem?_append_right (le_refl l1.length)]
  simp

/-- Unfolding lemma for the failure path of `SampleBuffer_Add`. -/
theorem SampleBuffer_Add_fail (buf : SampleBuffer) (frame : EncodedFrame)
    (hg : buf.initialized = false ∨ frame.data = none) :
    SampleBuffer_Add buf frame = (buf, frame, false) := by
  unfold SampleBuffer_Add
  rw [if_pos hg]

/-- Unfolding lemma for the success path of `SampleBuffer_Add`: evict, then
insert the frame's slot at `head`. -/
theorem SampleBuffer_Add_success (buf : SampleBuffer) (frame : EncodedFrame)
    (hg : ¬ (buf.initialized = false ∨ frame.data = none)) :
    SampleBuffer_Add buf frame =
      (insertAtHead (EvictOldSamples buf frame.timestamp) (frameSlot frame),
        { frame with data := none, size := 0 }, true) := by
  unfold SampleBuffer_Add
  rw [if_neg hg]

/-- `insertAtHead` preserves well-formedness and appends the sample to the
live list whenever the buffer is below capacity. -/
theorem insertAtHead_spec (buf : SampleBuffer) (slot : BufferedSample) (hWF : WF buf)
    (hlt : buf.count < buf.capacity) :
    WF (insertAtHead buf slot) ∧ live (insertAtHead buf slot) = live buf ++ [slot] := by
  obtain ⟨hlen, hcnt, hhead, htail, hcap⟩ := hWF
  constructor
  · refine ⟨?_, ?_, ?_, htail, hcap⟩
    · show (buf.samples.set buf.head slot).length = buf.capacity
      rw [List.length_set]
      exact hlen
    · show buf.count + 1 ≤ buf.capacity
      omega
    · show (buf.head + 1) % buf.capacity = (buf.tail + (buf.count + 1)) % buf.capacity
      rw [hhead, Nat.mod_add_mod]
      have harith : buf.tail + buf.count + 1 = buf.tail + (buf.count + 1) := by omega
      rw [harith]
  · show (List.range (buf.count + 1)).map (liveAt (insertAtHead buf slot)) =
      live buf ++ [slot]
    rw [List.range_succ, List.map_append, List.map_cons, List.map_nil]
    refine congrArg₂ (· ++ ·) ?_ ?_
    · refine List.map_congr_left fun i hi => ?_
      rw [List.mem_range] at hi
      show (buf.samples.set buf.head slot).getD ((buf.tail + i) % buf.capacity) default =
        liveAt buf i
      unfold liveAt
      apply getD_set_ne
      intro heq
      rw [hhead] at heq
      have := mod_offset_inj buf.capacity buf.tail buf.count i hlt
        (lt_of_lt_of_le hi (le_of_lt hlt)) heq
      omega
    · congr 1
      show (buf.samples.set buf.head slot).getD ((buf.tail + buf.count) % buf.capacity)
          default = slot
      rw [← hhead]
      refine getD_set_self _ _ _ ?_
      rw [hlen, hhead]
      exact Nat.mod_lt _ hcap

/-- `SampleBuffer_Add` preserves well-formedness and the scalar fields, for
every input and without any ordering assumption. -/
theorem add_struct (buf : SampleBuffer) (frame : EncodedFrame) (hWF : WF buf) :
    WF (SampleBuffer_Add buf frame).1 ∧
      (SampleBuffer_Add buf frame).1.capacity = buf.capacity ∧
      (SampleBuffer_Add buf frame).1.maxDuration = buf.maxDuration ∧
      (SampleBuffer_Add buf frame).1.initialized = buf.initialized := by
  by_cases hg : buf.initialized = false ∨ frame.data = none
  · rw [SampleBuffer_Add_fail buf frame hg]
    exact ⟨hWF, rfl, rfl, rfl⟩
  · rw [SampleBuffer_Add_success buf frame hg]
    obtain ⟨e1, e2, e3, e4, _, e6, _⟩ := EvictOldSamples_spec buf frame.timestamp hWF
    obtain ⟨i1, _⟩ := insertAtHead_spec (EvictOldSamples buf frame.timestamp)
      (frameSlot frame) e1 (by rw [e2]; exact e6)
    exact ⟨i1, e2, e3, e4⟩

/-- Full specification of one `SampleBuffer_Add` on a sorted buffer whose
live timestamps do not exceed the incoming frame's: well-formedness, the
scalar fields, sortedness, the timestamp bound and the span invariant all
carry over the call. -/
theorem add_spec (buf : SampleBuffer) (frame : EncodedFrame) (hWF : WF buf)
    (hsorted : ((live buf).map fun s => s.timestamp).Pairwise (· ≤ ·))
    (hub : ∀ s ∈ live buf, s.timestamp ≤ frame.timestamp)
    (hP : spanInvariant buf) :
    WF (SampleBuffer_Add buf frame).1 ∧
      (SampleBuffer_Add buf frame).1.maxDuration = buf.maxDuration ∧
      ((live (SampleBuffer_Add buf frame).1).map fun s => s.timestamp).Pairwise (· ≤ ·) ∧
      (∀ s ∈ live (SampleBuffer_Add buf frame).1, s.timestamp ≤ frame.timestamp) ∧
      spanInvariant (SampleBuffer_Add buf frame).1 := by
  by_cases hg : buf.initialized = false ∨ frame.data = none
  · rw [SampleBuffer_Add_fail buf frame hg]
    exact ⟨hWF, rfl, hsorted, hub, hP⟩
  · rw [SampleBuffer_Add_success buf frame hg]
    obtain ⟨e1, e2, e3, e4, ⟨k, hk⟩, e6, espan⟩ := EvictOldSamples_spec buf frame.timestamp hWF
    obtain ⟨i1, i2⟩ := insertAtHead_spec (EvictOldSamples buf frame.timestamp)
      (frameSlot frame) e1 (by rw [e2]; exact e6)
    have hsubset : ∀ s ∈ live (EvictOldSamples buf frame.timestamp), s ∈ live buf := by
      intro s hs
      rw [hk] at hs
      exact List.drop_subset k (live buf) hs
    have hsorted1 :
        ((live (EvictOldSamples buf frame.timestamp)).map fun s => s.timestamp).Pairwise
          (· ≤ ·) := by
      rw [hk]
      exact hsorted.sublist ((List.drop_sublist k (live buf)).map _)
    refine ⟨i1, e3, ?_, ?_, ?_⟩
    · rw [i2, List.map_append, List.pairwise_append]
      refine ⟨hsorted1, by simp, ?_⟩
      intro a ha b hb
      rw [List.map_cons, List.map_nil] at hb
      rcases List.mem_singleton.mp hb with rfl
      obtain ⟨s, hs, rfl⟩ := List.mem_map.mp ha
      exact hub s (hsubset s hs)
    · intro s hs
      rw [i2] at hs
      rcases List.mem_append.mp hs with hs | hs
      · exact hub s (hsubset s hs)
      · rcases List.mem_singleton.mp hs with rfl
        exact le_refl _
    · by_cases hr0 : (EvictOldSamples buf frame.timestamp).count = 0
      · left
        show (EvictOldSamples buf frame.timestamp).count + 1 = 1
        rw [hr0]
      · right
        have hcr : 0 < (EvictOldSamples buf frame.timestamp).count := Nat.pos_of_ne_zero hr0
        have hcount :
            (insertAtHead (EvictOldSamples buf frame.timestamp) (frameSlot frame)).count =
              (EvictOldSamples buf frame.timestamp).count + 1 := rfl
        have hlenr : (live (EvictOldSamples buf frame.timestamp)).length =
            (EvictOldSamples buf frame.timestamp).count :=
          live_length _
        have hnewest :
            newestTs (insertAtHead (EvictOldSamples buf frame.timestamp) (frameSlot frame)) =
              frame.timestamp := by
          unfold newestTs
          rw [← live_getD _ _ (by rw [hcount]; omega), i2]
          rw [show (insertAtHead (EvictOldSamples buf frame.timestamp)
            (frameSlot frame)).count - 1 =
              (live (EvictOldSamples buf frame.timestamp)).length from by
            rw [hcount, hlenr]
            omega]
          rw [getD_append_at_length]
          rfl
        have holdest :
            oldestTs (insertAtHead (EvictOldSamples buf frame.timestamp) (frameSlot frame)) =
              oldestTs (EvictOldSamples buf frame.timestamp) := by
          unfold oldestTs
          rw [← live_getD _ 0 (by rw [hcount]; omega), ← live_getD _ 0 hcr, i2]
          rw [getD_append_left _ _ 0 (by rw [hlenr]; exact hcr)]
        have hspan : frame.timestamp - oldestTs (EvictOldSamples buf frame.timestamp) ≤
            buf.maxDuration := by
          rcases espan hsorted with h | h
          · exact absurd h hr0
          · exact h
        have hmdins :
            (insertAtHead (EvictOldSamples buf frame.timestamp) (frameSlot frame)).maxDuration =
              buf.maxDuration := e3
        rw [hnewest, holdest, hmdins]
        exact hspan

/-- Folding `SampleBuffer_Add` preserves well-formedness and the capacity,
for every frame sequence. -/
theorem addAll_struct (frames : List EncodedFrame) : ∀ buf : SampleBuffer, WF buf →
    WF (addAll buf frames) ∧ (addAll buf frames).capacity = buf.capacity := by
  induction frames with
  | nil => intro buf h; exact ⟨h, rfl⟩
  | cons f fs ih =>
    intro buf h
    have hstep := add_struct buf f h
    show WF (addAll (SampleBuffer_Add buf f).1 fs) ∧
      (addAll (SampleBuffer_Add buf f).1 fs).capacity = buf.capacity
    obtain ⟨ha, hc⟩ := ih _ hstep.1
    exact ⟨ha, hc.trans hstep.2.1⟩

/-- Folding `SampleBuffer_Add` over a non-decreasing frame sequence whose
timestamps dominate the buffer's live timestamps preserves the span
invariant. -/
theorem addAll_inv (frames : List EncodedFrame) : ∀ buf : SampleBuffer,
    WF buf →
    ((live buf).map fun s => s.timestamp).Pairwise (· ≤ ·) →
    spanInvariant buf →
    ((frames.map fun f => f.timestamp).Pairwise (· ≤ ·)) →
    (∀ s ∈ live buf, ∀ f ∈ frames, s.timestamp ≤ f.timestamp) →
    spanInvariant (addAll buf frames) := by
  induction frames with
  | nil => intro buf _ _ hP _ _; exact hP
  | cons f fs ih =>
    intro buf hWF hsorted hP hchain hub
    have hubf : ∀ s ∈ live buf, s.timestamp ≤ f.timestamp := fun s hs =>
      hub s hs f (List.mem_cons_self f fs)
    obtain ⟨a1, _, a3, a4, a5⟩ := add_spec buf f hWF hsorted hubf hP
    rw [List.map_cons, List.pairwise_cons] at hchain
    show spanInvariant (addAll (SampleBuffer_Add buf f).1 fs)
    refine ih _ a1 a3 a5 hchain.2 ?_
    intro s hs g hg
    calc s.timestamp ≤ f.timestamp := a4 s hs
      _ ≤ g.timestamp := hchain.1 _ (List.mem_map_of_mem _ hg)

/-- An empty buffer with a non-negative retention window satisfies the span
invariant (its newest and oldest reads coincide). -/
theorem spanInvariant_of_empty (buf : SampleBuffer) (h : buf.count = 0)
    (hmd : 0 ≤ buf.maxDuration) : spanInvariant buf := by
  right
  unfold newestTs oldestTs
  rw [h]
  show (liveAt buf 0).timestamp - (liveAt buf 0).timestamp ≤ buf.maxDuration
  rw [sub_self]
  exact hmd

/-- Every buffer `SampleBuffer_Init` returns is well-formed, empty, and has
retention window `durationSeconds * 10^7`. -/
theorem init_fields (d fps w h : Int) (q : QualityPreset) (buf : SampleBuffer)
    (hinit : SampleBuffer_Init d fps w h q true = some buf) :
    WF buf ∧ buf.count = 0 ∧ buf.maxDuration = d * 10000000 := by
  unfold SampleBuffer_Init at hinit
  rw [if_pos rfl] at hinit
  have hbuf := (Option.some.injEq _ _).mp hinit
  subst hbuf
  have hcap : (100 : Int) ≤
      (if (if Int.tdiv (d * fps * 3) 2 < 100 then 100 else Int.tdiv (d * fps * 3) 2) >
          100000 then 100000
        else if Int.tdiv (d * fps * 3) 2 < 100 then 100 else Int.tdiv (d * fps * 3) 2) := by
    split_ifs <;> omega
  refine ⟨⟨?_, ?_, ?_, ?_, ?_⟩, rfl, rfl⟩
  · exact List.length_replicate _ _
  · exact Nat.zero_le _
  · show 0 = (0 + 0) % _
    simp
  · show 0 < Int.toNat _
    omega
  · show 0 < Int.toNat _
    omega

/-- C2: for every sequence of `SampleBuffer_Add` calls on an initialized
buffer, the buffer's `count` never exceeds its `capacity` after any call
(stated for every prefix of the call sequence). -/
theorem count_le_capacity_invariant (d fps w h : Int) (q : QualityPreset)
    (init : SampleBuffer) (hinit : SampleBuffer_Init d fps w h q true = some init)
    (frames p rest : List EncodedFrame) (_hsplit : frames = p ++ rest) :
    (addAll init p).count ≤ (addAll init p).capacity := by
  obtain ⟨hWF, _, _⟩ := init_fields d fps w h q init hinit
  exact (addAll_struct p init hWF).1.2.1

/-- Witness for C2 at a concrete input: the 101-frame overfill sequence on a
capacity-100 buffer stays within capacity after every call (here: after the
full sequence). -/
theorem count_le_capacity_invariant_witness :
    SampleBuffer_Init 1 30 640 480 QualityPreset.medium true = some demoBuffer ∧
      (addAll demoBuffer overfillFrames).count ≤ (addAll demoBuffer overfillFrames).capacity :=
  ⟨by decide,
    count_le_capacity_invariant 1 30 640 480 QualityPreset.medium demoBuffer (by decide)
      overfillFrames overfillFrames [] (by simp)⟩

/-- C1 (amended): for every sequence of `SampleBuffer_Add` calls with
non-decreasing timestamps on a buffer initialized with a non-negative
duration, after each call either the buffer holds exactly one sample or the
newest stored timestamp minus the oldest stored timestamp is at most
`maxDuration` (stated for every prefix of the call sequence). -/
theorem add_span_invariant_monotone (d fps w h : Int) (q : QualityPreset) (hd : 0 ≤ d)
    (init : SampleBuffer) (hinit : SampleBuffer_Init d fps w h q true = some init)
    (frames p rest : List EncodedFrame) (hsplit : frames = p ++ rest)
    (hmono : (frames.map fun f => f.timestamp).Pairwise (· ≤ ·)) :
    spanInvariant (addAll init p) := by
  obtain ⟨hWF, hcount0, hmax⟩ := init_fields d fps w h q init hinit
  have hmd : 0 ≤ init.maxDuration := by
    rw [hmax]
    exact mul_nonneg hd (by norm_num)
  have hlive : live init = [] := by
    unfold live
    rw [hcount0]
    rfl
  refine addAll_inv p init hWF ?_ ?_ ?_ ?_
  · rw [hlive]
    exact List.Pairwise.nil
  · exact spanInvariant_of_empty init hcount0 hmd
  · subst hsplit
    rw [List.map_append] at hmono
    exact (List.pairwise_append.mp hmono).1
  · intro s hs
    rw [hlive] at hs
    cases hs

/-- Witness for C1 at a concrete input: two monotone adds (t = 0 then
t = 5) on a freshly initialized buffer keep the span invariant after the
first call. -/
theorem add_span_invariant_monotone_witness :
    (0 : Int) ≤ 1 ∧ spanInvariant (addAll demoBuffer [mkFrame 0]) :=
  ⟨by norm_num,
    add_span_invariant_monotone 1 30 640 480 QualityPreset.medium (by norm_num) demoBuffer
      (by decide) [mkFrame 0, mkFrame 5] [mkFrame 0] [mkFrame 5] rfl (by decide)⟩

/-- `find?` returns the head of the filtered list. -/
theorem find?_eq_head?_filter {α : Type} (p : α → Bool) (l : List α) :
    l.find? p = (l.filter p).head? :=
  (List.filter_head? p l).symm

/-- A `filterMap` whose function is a guarded `some` is a filter then a map. -/
theorem filterMap_guard {α β : Type} (p : α → Bool) (f : α → β) (l : List α) :
    (l.filterMap fun a => if p a then some (f a) else none) = (l.filter p).map f := by
  induction l with
  | nil => rfl
  | cons a t ih =>
    by_cases h : p a <;> simp [List.filterMap_cons, List.filter_cons, h, ih]

/-- With every per-sample allocation succeeding, the snapshot copy loop
produces exactly the eligible live samples, re-based by `firstTimestamp`. -/
theorem copySamples_all_alloc (buf : SampleBuffer) (t0 : Int) :
    copySamples buf t0 (fun _ => true) =
      ((live buf).filter eligSample).map fun src =>
        { data := src.data, size := src.size, timestamp := src.timestamp - t0,
          duration := src.duration, isKeyframe := src.isKeyframe } := by
  rw [← filterMap_guard]
  unfold copySamples live
  rw [List.filterMap_map]
  refine List.filterMap_congr fun i _ => ?_
  simp [Function.comp, Bool.and_true]

/-- The first-timestamp scan returns the timestamp of the first eligible
live sample. -/
theorem findFirstTimestamp_eq (buf : SampleBuffer) :
    findFirstTimestamp buf =
      ((((live buf).filter eligSample).head?.map fun s => s.timestamp).getD 0) := by
  rw [← find?_eq_head?_filter]
  unfold findFirstTimestamp live
  rw [List.find?_map, Option.map_map]
  rfl

/-- C5 (amended): on every initialized buffer whose live timestamps are
strictly increasing and which holds at least one eligible (non-NULL,
positive-size) sample, `SampleBuffer_GetSamplesForMuxing` with all
allocations succeeding returns true together with deep-copied samples in
strictly ascending timestamp order whose first timestamp is 0; the copies
carry exactly the bytes, sizes, durations and keyframe flags of the eligible
live samples in order. -/
theorem snapshot_strictly_ascending (buf : SampleBuffer)
    (hinit : buf.initialized = true)
    (hsorted : ((live buf).map fun s => s.timestamp).Pairwise (· < ·))
    (hex : ∃ s ∈ live buf, eligSample s = true) :
    ∃ out : List MuxerSample,
      (SampleBuffer_GetSamplesForMuxing buf true fun _ => true).2.2 = some out ∧
        (SampleBuffer_GetSamplesForMuxing buf true fun _ => true).2.1 = true ∧
        out ≠ [] ∧
        (out.headD default).timestamp = 0 ∧
        (out.map fun s => s.timestamp).Pairwise (· < ·) ∧
        out.map (fun s => (s.data, s.size, s.duration, s.isKeyframe)) =
          ((live buf).filter eligSample).map fun s =>
            (s.data, s.size, s.duration, s.isKeyframe) := by
  obtain ⟨s, hs, hse⟩ := hex
  have hmemf : s ∈ (live buf).filter eligSample := List.mem_filter.mpr ⟨hs, hse⟩
  obtain ⟨a, tl, hL⟩ : ∃ a tl, (live buf).filter eligSample = a :: tl := by
    cases hfil : (live buf).filter eligSample with
    | nil => rw [hfil] at hmemf; cases hmemf
    | cons a tl => exact ⟨a, tl, rfl⟩
  have hcount : ¬ buf.count = 0 := by
    intro h0
    have hnil : live buf = [] := by
      unfold live
      rw [h0]
      rfl
    rw [hnil] at hs
    cases hs
  have hfirst : findFirstTimestamp buf = a.timestamp := by
    rw [findFirstTimestamp_eq, hL]
    rfl
  have hres : SampleBuffer_GetSamplesForMuxing buf true (fun _ => true) =
      (buf, decide (0 < (copySamples buf (findFirstTimestamp buf) fun _ => true).length),
        some (copySamples buf (findFirstTimestamp buf) fun _ => true)) := by
    unfold SampleBuffer_GetSamplesForMuxing
    rw [if_neg (by simp [hinit]), if_neg hcount, if_neg (by simp)]
  have hout : (copySamples buf (findFirstTimestamp buf) fun _ => true) =
      (a :: tl).map fun src =>
        { data := src.data, size := src.size, timestamp := src.timestamp - a.timestamp,
          duration := src.duration, isKeyframe := src.isKeyframe } := by
    rw [hfirst] at hres ⊢
    rw [copySamples_all_alloc, hL]
  refine ⟨(copySamples buf (findFirstTimestamp buf) fun _ => true), by rw [hres], ?_, ?_,
    ?_, ?_, ?_⟩
  · rw [hres]
    show decide _ = true
    rw [hout]
    simp
  · rw [hout]
    simp
  · rw [hout, List.map_cons]
    show (a.timestamp - a.timestamp : Int) = 0
    rw [sub_self]
  · rw [hout, ← hL, List.map_map]
    have hfsorted : ((live buf).filter eligSample).Pairwise
        fun x y => x.timestamp < y.timestamp :=
      (List.pairwise_map.mp hsorted).filter eligSample
    refine List.Pairwise.map _ ?_ hfsorted
    intro x y hxy
    show x.timestamp - a.timestamp < y.timestamp - a.timestamp
    exact sub_lt_sub_right hxy a.timestamp
  · rw [hout, ← hL, List.map_map]
    exact List.map_congr_left fun s _ => rfl

/-- Witness for C5 at a concrete input: two monotone adds (t = 0, t = 5)
yield a snapshot with timestamps 0 and 5, strictly ascending from 0. -/
theorem snapshot_strictly_ascending_witness :
    (addAll demoBuffer [mkFrame 0, mkFrame 5]).initialized = true ∧
      ∃ out : List MuxerSample,
        (SampleBuffer_GetSamplesForMuxing (addAll demoBuffer [mkFrame 0, mkFrame 5]) true
            fun _ => true).2.2 = some out ∧
          (SampleBuffer_GetSamplesForMuxing (addAll demoBuffer [mkFrame 0, mkFrame 5]) true
              fun _ => true).2.1 = true ∧
          out ≠ [] ∧
          (out.headD default).timestamp = 0 ∧
          (out.map fun s => s.timestamp).Pairwise (· < ·) ∧
          out.map (fun s => (s.data, s.size, s.duration, s.isKeyframe)) =
            ((live (addAll demoBuffer [mkFrame 0, mkFrame 5])).filter eligSample).map fun s =>
              (s.data, s.size, s.duration, s.isKeyframe) :=
  ⟨by decide,
    snapshot_strictly_ascending (addAll demoBuffer [mkFrame 0, mkFrame 5]) (by decide)
      (by decide) (by decide)⟩

end QuickRecord
